import Mathlib

/-!
Shallow embedding of `comtrade.py`: a two-stage COMTRADE decoder
(configuration-file parser plus binary record decoder).

Modelling conventions:
* Python strings are Lean `String`s; the handful of Python string builtins the
  source uses (`split`, `replace(old, '')`, `in`, `strip`, `lower`) are
  re-implemented structurally over `List Char` so they evaluate by kernel
  reduction.
* Python `int(...)` / `float(...)` are modelled on the literal forms the
  COMTRADE format uses: optional sign followed by decimal digits, with an
  optional fractional part for floats (exponent and inf/nan forms are not
  modelled).  Python floats are modelled as exact rationals (`ℚ`).
* Fallible Python code (exceptions: `ValueError`, `IndexError`,
  `struct.error`, `ZeroDivisionError`, `AttributeError`) is modelled with
  `Except String`; an uncaught exception anywhere in a constructor makes the
  whole constructor return `.error` (the partially mutated object is
  unobservable in the source because no caller catches mid-construction).
* The filesystem is an explicit map from path to optional content
  (`FileSystem`); `os.path.exists` is `Option.isSome` of the lookup.
* `struct.unpack('h', ...)` (native byte order on the little-endian platforms
  the source targets) is a little-endian signed 16-bit read; `bytes` values
  are `List ℕ` with each entry reduced mod 256.
-/

deriving instance DecidableEq for Except

set_option allowUnsafeReducibility true in
attribute [semireducible] Rat.add Rat.inv Rat.mul Rat.sub Rat.ofScientific

set_option maxRecDepth 8000

/-- Python whitespace test used by `str.strip()` (ASCII whitespace). -/
def pyIsSpace (c : Char) : Bool :=
  c == ' ' || c == '\t' || c == '\n' || c == '\r' || c == '\x0b' || c == '\x0c'

/-- Python `str.strip()` on the character list. -/
def pyStripList (cs : List Char) : List Char :=
  ((cs.dropWhile pyIsSpace).reverse.dropWhile pyIsSpace).reverse

/-- Split a character list at every occurrence of separator `sep`
(Python `str.split(sep)` with a one-character separator: empty pieces are
kept, and the empty string splits to `[""]`). -/
def splitOnChar (sep : Char) : List Char → List (List Char)
  | [] => [[]]
  | c :: cs =>
    match splitOnChar sep cs with
    | [] => if c == sep then [[], []] else [[c]]
    | g :: gs => if c == sep then [] :: g :: gs else (c :: g) :: gs

/-- Python `s.split(sep)` for a one-character separator. -/
def pySplit (s : String) (sep : Char) : List String :=
  (splitOnChar sep s.data).map (fun g => ⟨g⟩)

/-- Remove every occurrence of the (non-empty) pattern `old`, left to right:
fuel-indexed so the recursion is structural.  Python `s.replace(old, '')`. -/
def removeAllAux (old : List Char) : ℕ → List Char → List Char
  | 0, rest => rest
  | _ + 1, [] => []
  | fuel + 1, c :: cs =>
    if old ≠ [] && old.isPrefixOf (c :: cs) then
      removeAllAux old fuel (cs.drop (old.length - 1))
    else
      c :: removeAllAux old fuel cs

/-- Python `s.replace(old, '')` (the source only ever replaces with the
empty string). -/
def pyRemove (s old : String) : String :=
  ⟨removeAllAux old.data s.data.length s.data⟩

/-- Python `needle in haystack` on character lists. -/
def listContainsSeq (needle : List Char) : List Char → Bool
  | [] => needle.isEmpty
  | c :: cs => needle.isPrefixOf (c :: cs) || listContainsSeq needle cs

/-- Python substring containment `needle in hay`. -/
def pyInStr (needle hay : String) : Bool :=
  listContainsSeq needle.data hay.data

/-- Python one-character containment `c in s`. -/
def pyInChar (c : Char) (s : String) : Bool :=
  s.data.contains c

/-- Python `str.lower()` (ASCII as used by the source). -/
def pyLowerStr (s : String) : String :=
  ⟨s.data.map Char.toLower⟩

/-- Decimal value of a digit list (most significant first). -/
def digitsVal (cs : List Char) : ℕ :=
  cs.foldl (fun a c => 10 * a + (c.toNat - 48)) 0

/-- Magnitude part accepted by Python `int(...)`: a non-empty digit string. -/
def intMagnitude (ds : List Char) : Option ℕ :=
  if !ds.isEmpty && ds.all Char.isDigit then some (digitsVal ds) else none

/-- Python `int(s)` on the decimal-literal forms used by the COMTRADE format:
optional surrounding whitespace, optional sign, non-empty digit string. -/
def pyInt (s : String) : Except String ℤ :=
  let err : Except String ℤ :=
    .error ("ValueError: invalid literal for int() with base 10: " ++ s)
  match pyStripList s.data with
  | '+' :: rest =>
    match intMagnitude rest with
    | some n => .ok (n : ℤ)
    | none => err
  | '-' :: rest =>
    match intMagnitude rest with
    | some n => .ok (-(n : ℤ))
    | none => err
  | cs =>
    match intMagnitude cs with
    | some n => .ok (n : ℤ)
    | none => err

/-- Magnitude part accepted by Python `float(...)` on the literal forms the
format uses: digits, optionally a point with further digits, at least one
digit overall (exponent forms are not modelled). -/
def floatMagnitude (cs : List Char) : Option ℚ :=
  let ip := cs.takeWhile Char.isDigit
  match cs.dropWhile Char.isDigit with
  | [] => if ip.isEmpty then none else some (digitsVal ip : ℚ)
  | '.' :: fp =>
    if fp.all Char.isDigit && !(ip.isEmpty && fp.isEmpty) then
      some ((digitsVal ip : ℚ) + (digitsVal fp : ℚ) / (10 : ℚ) ^ fp.length)
    else none
  | _ => none

/-- Python `float(s)` on the decimal-literal forms used by the format. -/
def pyFloat (s : String) : Except String ℚ :=
  let err : Except String ℚ :=
    .error ("ValueError: could not convert string to float: " ++ s)
  match pyStripList s.data with
  | '+' :: rest =>
    match floatMagnitude rest with
    | some q => .ok q
    | none => err
  | '-' :: rest =>
    match floatMagnitude rest with
    | some q => .ok (-q)
    | none => err
  | cs =>
    match floatMagnitude cs with
    | some q => .ok q
    | none => err

/-- Python sequence indexing `xs[i]` for a non-negative index: raises
`IndexError` past the end. -/
def getItem {α : Type} (xs : List α) (i : ℕ) : Except String α :=
  match xs.get? i with
  | some x => .ok x
  | none => .error "IndexError: list index out of range"

/-- `true` iff the computation did not raise. -/
def exceptIsOk {ε α : Type} (e : Except ε α) : Bool :=
  match e with
  | .ok _ => true
  | .error _ => false

/-- Clamp one end of a Python slice `data[i:j]` to the sequence bounds,
including Python's from-the-end semantics of negative indices. -/
def pySliceIdx (len : ℕ) (i : ℤ) : ℕ :=
  if i < 0 then ((len : ℤ) + i).toNat else min i.toNat len

/-- Python slice `data[i:j]`. -/
def pySlice (data : List ℕ) (i j : ℤ) : List ℕ :=
  let a := pySliceIdx data.length i
  let b := pySliceIdx data.length j
  (data.drop a).take (b - a)

/-- Two's-complement reading of an unsigned 16-bit word. -/
def toSigned16 (w : ℕ) : ℤ :=
  if w % 65536 < 32768 then (w % 65536 : ℤ) else (w % 65536 : ℤ) - 65536

/-- The unsigned little-endian 16-bit word at byte offset `idx`
(`struct.unpack` raises `struct.error` unless the slice holds exactly
2 bytes). -/
def readUInt16LE (data : List ℕ) (idx : ℤ) : Except String ℕ :=
  match pySlice data idx (idx + 2) with
  | [b0, b1] => .ok (b0 % 256 + 256 * (b1 % 256))
  | _ => .error "struct.error: unpack requires a buffer of 2 bytes"

/-- `struct.unpack('h', data[idx:idx+2])[0]`: little-endian signed 16-bit. -/
def readInt16LE (data : List ℕ) (idx : ℤ) : Except String ℤ :=
  match readUInt16LE data idx with
  | .ok w => .ok (toSigned16 w)
  | .error e => .error e

/-- Analog channel descriptor (`AnalogInfo`): the 13 comma-delimited fields of
one analog-channel line plus the growable decoded-value buffer `_data`
(here `dat`).  Python floats are exact rationals. -/
structure AnalogInfo where
  num : ℤ
  ch_id : String
  phase : String
  ccbm : String
  unit : String
  a : ℚ
  b : ℚ
  skew : ℚ
  min : ℚ
  max : ℚ
  primary : ℚ
  secondary : ℚ
  ps : String
  dat : List ℚ := []
deriving DecidableEq, Inhabited

/-- `AnalogInfo.__init__` on one configuration line. -/
def mkAnalogInfo (infoStr : String) : Except String AnalogInfo := do
  let buf := pySplit (pyRemove infoStr "\n") ','
  let num ← pyInt (← getItem buf 0)
  let ch_id ← getItem buf 1
  let phase ← getItem buf 2
  let ccbm ← getItem buf 3
  let unit ← getItem buf 4
  let a ← pyFloat (← getItem buf 5)
  let b ← pyFloat (← getItem buf 6)
  let skew ← pyFloat (← getItem buf 7)
  let mn ← pyFloat (← getItem buf 8)
  let mx ← pyFloat (← getItem buf 9)
  let primary ← pyFloat (← getItem buf 10)
  let secondary ← pyFloat (← getItem buf 11)
  let ps ← getItem buf 12
  .ok { num, ch_id, phase, ccbm, unit, a, b, skew, min := mn, max := mx,
        primary, secondary, ps, dat := [] }

/-- `AnalogInfo.appendData`: append `rawValue * a + b` to the buffer. -/
def AnalogInfo.appendData (c : AnalogInfo) (rawValue : ℤ) : AnalogInfo :=
  { c with dat := c.dat ++ [(rawValue : ℚ) * c.a + c.b] }

/-- Digital channel descriptor (`DigitalInfo`): the 5 fields of one
digital-channel line plus the decoded-bit buffer. -/
structure DigitalInfo where
  num : ℤ
  ch_id : String
  phase : String
  ccbm : String
  y : ℤ
  dat : List ℕ := []
deriving DecidableEq, Inhabited

/-- `DigitalInfo.__init__` on one configuration line. -/
def mkDigitalInfo (infoStr : String) : Except String DigitalInfo := do
  let buf := pySplit (pyRemove infoStr "\n") ','
  let num ← pyInt (← getItem buf 0)
  let ch_id ← getItem buf 1
  let phase ← getItem buf 2
  let ccbm ← getItem buf 3
  let y ← pyInt (← getItem buf 4)
  .ok { num, ch_id, phase, ccbm, y, dat := [] }

/-- `DigitalInfo.appendData`: Python tests `value & (0x0001 << self.num)` and
appends `1` or `0`.  The truthiness test is bit `num` of the two's-complement
value, i.e. floor-shift then parity; a negative shift count raises
`ValueError` exactly as `<<` does in Python. -/
def DigitalInfo.appendData (c : DigitalInfo) (value : ℤ) : Except String DigitalInfo :=
  if c.num < 0 then .error "ValueError: negative shift count"
  else .ok { c with
    dat := c.dat ++ [if (value.ediv (2 ^ c.num.toNat)).emod 2 ≠ 0 then 1 else 0] }

/-- `FileInfo`: the file-identity line.  The second field is fed to
`int(...)` by the source even though it is descriptive. -/
structure FileInfo where
  station_name : String
  rec_dev_id : ℤ
  rev_year : String
deriving DecidableEq, Inhabited

/-- `FileInfo.__init__` on the first configuration line. -/
def mkFileInfo (infoStr : String) : Except String FileInfo := do
  let buf := pySplit (pyRemove infoStr "\n") ','
  let station_name ← getItem buf 0
  let rec_dev_id ← pyInt (← getItem buf 1)
  let rev_year ← getItem buf 2
  .ok { station_name, rec_dev_id, rev_year }

/-- `ChannelInfo`: the channel-layout line counts. -/
structure ChannelInfo where
  total : ℤ
  analog : ℤ
  digital : ℤ
deriving DecidableEq, Inhabited

/-- The analog-count token: `int(buf[1].replace('A', ''))` when the marker
letter `A` is present, else `0` (source lines 108–111). -/
def analogCountField (f1 : String) : Except String ℤ :=
  if pyInChar 'A' f1 then pyInt (pyRemove f1 "A") else .ok 0

/-- The digital-count token: `int(buf[2].replace('D', ''))` when the marker
letter `D` is present, else `0` (source lines 109–113). -/
def digitalCountField (f2 : String) : Except String ℤ :=
  if pyInChar 'D' f2 then pyInt (pyRemove f2 "D") else .ok 0

/-- `ChannelInfo.__init__`: parse `total,<N>A,<M>D`; a missing marker letter
yields a zero count; a total that does not match the sum collapses all three
counts to zero. -/
def mkChannelInfo (infoStr : String) : Except String ChannelInfo := do
  let buf := pySplit (pyRemove infoStr "\n") ','
  let total ← pyInt (← getItem buf 0)
  let f1 ← getItem buf 1
  let analog ← analogCountField f1
  let f2 ← getItem buf 2
  let digital ← digitalCountField f2
  if total ≠ analog + digital then
    .ok { total := 0, analog := 0, digital := 0 }
  else
    .ok { total, analog, digital }

/-- `SampleInfo`: one sample-rate segment (`rate,end`); the source field
`end` is named `endIdx` because `end` is reserved in Lean. -/
structure SampleInfo where
  rate : ℚ
  endIdx : ℤ
deriving DecidableEq, Inhabited

/-- `SampleInfo.__init__` on one segment line. -/
def mkSampleInfo (infoStr : String) : Except String SampleInfo := do
  let buf := pySplit (pyRemove infoStr "\n") ','
  let rate ← pyFloat (← getItem buf 0)
  let endIdx ← pyInt (← getItem buf 1)
  .ok { rate, endIdx }

/-- `TimeStamp`: `day/month/year,hour:minute:second`. -/
structure TimeStamp where
  day : ℤ
  month : ℤ
  year : ℤ
  hour : ℤ
  minute : ℤ
  second : ℚ
deriving DecidableEq, Inhabited

/-- `TimeStamp.__init__` on one timestamp line. -/
def mkTimeStamp (infoStr : String) : Except String TimeStamp := do
  let buf := pySplit (pyRemove infoStr "\n") ','
  let dateList := pySplit (← getItem buf 0) '/'
  let timeList := pySplit (← getItem buf 1) ':'
  let day ← pyInt (← getItem dateList 0)
  let month ← pyInt (← getItem dateList 1)
  let year ← pyInt (← getItem dateList 2)
  let hour ← pyInt (← getItem timeList 0)
  let minute ← pyInt (← getItem timeList 1)
  let second ← pyFloat (← getItem timeList 2)
  .ok { day, month, year, hour, minute, second }

/-- Configuration document (`ComtradeConfig` object state).  `result` is the
status string the source maintains; unparsed fields keep their defaults,
standing in for Python attributes that were never assigned (accessing them
raises either way, see `mkComtradeParser`). -/
structure ComtradeConfig where
  path : String
  result : String
  fileInfo : FileInfo := default
  channelInfo : ChannelInfo := default
  analogInfo : List AnalogInfo := []
  digitalInfo : List DigitalInfo := []
  frequency : ℚ := 0
  nrates : ℤ := 0
  sampleInfo : List SampleInfo := []
  startTime : TimeStamp := default
  triggerTime : TimeStamp := default
  dataFormat : String := ""
  timemult : ℚ := 0
deriving DecidableEq, Inhabited

/-- Parse `k` consecutive lines starting at index `idx` with parser `p`
(the `for i in range(0, k)` descriptor loops of `ComtradeConfig._parse`). -/
def parseMany {α : Type} (p : String → Except String α) (lines : List String) :
    ℕ → ℕ → Except String (List α)
  | _, 0 => .ok []
  | idx, k + 1 => do
    let x ← p (← getItem lines idx)
    let xs ← parseMany p lines (idx + 1) k
    .ok (x :: xs)

/-- `ComtradeConfig._parse`: consume the line list in the fixed COMTRADE
positional order, raising on any missing line or malformed numeric field. -/
def parseConfig (path : String) (lines : List String) : Except String ComtradeConfig := do
  let fileInfo ← mkFileInfo (← getItem lines 0)
  let channelInfo ← mkChannelInfo (← getItem lines 1)
  let A := channelInfo.analog.toNat
  let D := channelInfo.digital.toNat
  let analogInfo ← parseMany mkAnalogInfo lines 2 A
  let digitalInfo ← parseMany mkDigitalInfo lines (2 + A) D
  let frequency ← pyFloat (← getItem lines (2 + A + D))
  let nrates ← pyInt (← getItem lines (3 + A + D))
  let sampleInfo ← parseMany mkSampleInfo lines (4 + A + D) nrates.toNat
  let startTime ← mkTimeStamp (← getItem lines (4 + A + D + nrates.toNat))
  let triggerTime ← mkTimeStamp (← getItem lines (5 + A + D + nrates.toNat))
  let dataFormat ← getItem lines (6 + A + D + nrates.toNat)
  let timemult ← pyFloat (← getItem lines (7 + A + D + nrates.toNat))
  .ok { path, result := "parsed", fileInfo, channelInfo, analogInfo, digitalInfo,
        frequency, nrates, sampleInfo, startTime, triggerTime,
        dataFormat := pyLowerStr dataFormat, timemult }

/-- `ComtradeConfig._removeNextline`. -/
def removeNextline (strList : List String) : List String :=
  strList.map (fun each => pyRemove each "\n")

/-- The filesystem the session runs against: text files as line lists
(`readlines`), binary files as byte lists (`read`); `none` means the path
does not exist. -/
structure FileSystem where
  text : String → Option (List String)
  bin : String → Option (List ℕ)

/-- `ComtradeConfig.__init__`: missing file is reported through the `result`
status; otherwise the line list is parsed, and any parse failure propagates
as an exception. -/
def mkComtradeConfig (sys : FileSystem) (filePath : String) : Except String ComtradeConfig :=
  match sys.text filePath with
  | none => .ok { path := filePath, result := "no file" }
  | some lines => parseConfig filePath (removeNextline lines)

/-- `np.linspace(start, stop, num)` with the default inclusive endpoint:
`num` evenly spaced points from `start` to `stop`; negative `num` raises. -/
def npLinspace (start stop : ℚ) (num : ℤ) : Except String (List ℚ) :=
  if num < 0 then .error "ValueError: number of samples must be non-negative"
  else .ok ((List.range num.toNat).map fun i =>
    if num = 1 then start
    else start + (i : ℚ) * (stop - start) / ((num : ℚ) - 1))

/-- Python `dict` assignment `d[k] = v` on an insertion-ordered association
list: an existing key keeps its position, a new key is appended. -/
def pyDictInsert {β : Type} (d : List (String × β)) (k : String) (v : β) :
    List (String × β) :=
  if d.any (fun p => p.1 == k) then
    d.map (fun p => if p.1 == k then (k, v) else p)
  else d ++ [(k, v)]

/-- `ComtradeData` object state after construction: the status string, the
derived record geometry, the descriptor lists after their buffers were
filled, and the two name-keyed output dictionaries. -/
structure ComtradeDataState where
  result : String
  path : String := ""
  unitSize : ℤ := 0
  sampleCount : ℤ := 0
  deltaT : ℚ := 0
  analogChans : List AnalogInfo := []
  digitalChans : List DigitalInfo := []
  analogMap : List (String × List ℚ) := []
  digitalMap : List (String × List ℕ) := []
deriving DecidableEq, Inhabited

/-- Inner analog loop of one sample record
(`for ch in range(0, analogChNum)`), at base offset
`analogIndex = i * unitSize + 8`:  read the signed word at `ch * 2 + base`
and append it through the channel's calibration.  Structured as recursion on
the number `k` of channels still to visit, starting at channel `ch`. -/
def analogPass (data : List ℕ) (base : ℤ) : ℕ → ℕ → List AnalogInfo →
    Except String (List AnalogInfo)
  | _, 0, chans => .ok chans
  | ch, k + 1, chans =>
    match readInt16LE data ((ch : ℤ) * 2 + base) with
    | .error e => .error e
    | .ok raw =>
      match getItem chans ch with
      | .error e => .error e
      | .ok c => analogPass data base (ch + 1) k (chans.set ch (c.appendData raw))

/-- Inner digital loop of one sample record
(`for ch in range(0, digitalChNum)`), at base offset
`digitalIndex = i * unitSize + 8 + analogBytesLen`: read the packed word at
`(ch // 16) * 2 + base` and append the tested bit. -/
def digitalPass (data : List ℕ) (base : ℤ) : ℕ → ℕ → List DigitalInfo →
    Except String (List DigitalInfo)
  | _, 0, chans => .ok chans
  | ch, k + 1, chans =>
    match readInt16LE data (((ch / 16 : ℕ) : ℤ) * 2 + base) with
    | .error e => .error e
    | .ok raw =>
      match getItem chans ch with
      | .error e => .error e
      | .ok c =>
        match c.appendData raw with
        | .error e => .error e
        | .ok c' => digitalPass data base (ch + 1) k (chans.set ch c')

/-- Outer sample loop (`for i in range(0, self.sampleCount)`), with `k`
samples still to decode starting at sample `i`. -/
def sampleLoop (data : List ℕ) (u : ℤ) (A D : ℕ) (aBytes : ℤ) :
    ℕ → ℕ → List AnalogInfo → List DigitalInfo →
    Except String (List AnalogInfo × List DigitalInfo)
  | _, 0, achans, dchans => .ok (achans, dchans)
  | i, k + 1, achans, dchans =>
    match analogPass data ((i : ℤ) * u + 8) 0 A achans with
    | .error e => .error e
    | .ok a' =>
      match digitalPass data ((i : ℤ) * u + 8 + aBytes) 0 D dchans with
      | .error e => .error e
      | .ok d' => sampleLoop data u A D aBytes (i + 1) k a' d'

/-- The packed-digital byte width: `2 * ((D // 16) + 1)` when `D % 16 ≠ 0`,
else `2 * (D // 16)` (Python floor division and modulus are `ediv`/`emod`
for this positive divisor). -/
def digitalBytesLenOf (digitalChNum : ℤ) : ℤ :=
  if digitalChNum.emod 16 ≠ 0 then 2 * (digitalChNum.ediv 16 + 1)
  else 2 * (digitalChNum.ediv 16)

/-- The fixed record stride `unitSize = 4 + 4 + digitalBytesLen + analogBytesLen`. -/
def unitSizeOf (analogChNum digitalChNum : ℤ) : ℤ :=
  4 + 4 + digitalBytesLenOf digitalChNum + 2 * analogChNum

/-- The body of `ComtradeData.__init__` once the binary bytes are in hand:
record geometry, first-segment timing, the decode loop, and the two output
dictionaries. -/
def decodeBytes (config : ComtradeConfig) (data : List ℕ) (p : String) :
    Except String ComtradeDataState :=
  let analogChNum := config.channelInfo.analog
  let digitalChNum := config.channelInfo.digital
  let analogBytesLen : ℤ := 2 * analogChNum
  let unitSize : ℤ := unitSizeOf analogChNum digitalChNum
  match getItem config.sampleInfo 0 with
  | .error e => .error e
  | .ok seg =>
    if seg.rate = 0 then .error "ZeroDivisionError: float division by zero"
    else
      match sampleLoop data unitSize analogChNum.toNat digitalChNum.toNat
          analogBytesLen 0 seg.endIdx.toNat config.analogInfo config.digitalInfo with
      | .error e => .error e
      | .ok (aC, dC) =>
        .ok { result := "parsed", path := p, unitSize, sampleCount := seg.endIdx,
              deltaT := 1 / seg.rate, analogChans := aC, digitalChans := dC,
              analogMap := aC.foldl
                (fun m c => pyDictInsert m (c.ch_id ++ "(" ++ c.unit ++ ")") c.dat) [],
              digitalMap := dC.foldl (fun m c => pyDictInsert m c.ch_id c.dat) [] }

/-- The binary sibling path: `config.path.split('.')[0] + '.dat'`. -/
def datPath (cfgPath : String) : String :=
  (pySplit cfgPath '.').headD "" ++ ".dat"

/-- `ComtradeData.__init__`: refuse to decode an unparsed configuration
(status stays `none`), report a missing binary sibling through the status
(`no file`), otherwise decode the bytes. -/
def mkComtradeData (sys : FileSystem) (config : ComtradeConfig) :
    Except String ComtradeDataState :=
  let p := datPath config.path
  if config.result ≠ "parsed" then .ok { result := "none", path := p }
  else
    match sys.bin p with
    | none => .ok { result := "no file", path := p }
    | some data => decodeBytes config data p

/-- `ComtradeData.t`: `np.linspace(0.0, deltaT * sampleCount, sampleCount)`
for a parsed session, otherwise a zero-length vector. -/
def ComtradeDataState.t (d : ComtradeDataState) : Except String (List ℚ) :=
  if d.result = "parsed" then npLinspace 0 (d.deltaT * (d.sampleCount : ℚ)) d.sampleCount
  else .ok []

/-- `ComtradeData.analog`: the analog dictionary, or empty when the data
stage did not finish. -/
def ComtradeDataState.analog (d : ComtradeDataState) : List (String × List ℚ) :=
  if d.result = "parsed" then d.analogMap else []

/-- `ComtradeData.digital`: the digital dictionary, or empty when the data
stage did not finish. -/
def ComtradeDataState.digital (d : ComtradeDataState) : List (String × List ℕ) :=
  if d.result = "parsed" then d.digitalMap else []

/-- `ComtradeParser` object state after a constructor run that completed
without raising.  The early `not a comtrade file` return leaves every other
attribute unassigned; defaults stand in for those. -/
structure ComtradeParserState where
  result : String
  path : String := ""
  config : ComtradeConfig := default
  dat : ComtradeDataState := default
  analog : List (String × List ℚ) := []
  digital : List (String × List ℕ) := []
  t : List ℚ := []
  fs : ℚ := 0
deriving DecidableEq, Inhabited

/-- `ComtradeParser.__init__`: recognise the path, run both stages, publish
the channel dictionaries, set `result = 'parsed'`, then compute the time
vector and `fs = config.sampleInfo[0].rate` (which raises when the
configuration stage did not parse — modelled as the same
`IndexError`/`AttributeError` failure of the whole constructor). -/
def mkComtradeParser (sys : FileSystem) (path0 : String) : Except String ComtradeParserState :=
  if !pyInStr ".cfg" path0 && !pyInStr ".dat" path0 then
    .ok { result := "not a comtrade file: " ++ path0 }
  else
    let path := if !pyInStr ".cfg" path0 then pyRemove path0 ".dat"
                else pyRemove path0 ".cfg"
    match mkComtradeConfig sys (path ++ ".cfg") with
    | .error e => .error e
    | .ok config =>
      match mkComtradeData sys config with
      | .error e => .error e
      | .ok dat =>
        match dat.t with
        | .error e => .error e
        | .ok t =>
          match getItem config.sampleInfo 0 with
          | .error e => .error e
          | .ok seg =>
            .ok { result := "parsed", path, config, dat,
                  analog := dat.analog, digital := dat.digital, t, fs := seg.rate }

/-- The spec's §8 scenario configuration: 2 analog + 1 digital channels, one
sample-rate segment `rate=1000, end=3`. -/
def demoCfgLines : List String :=
  ["station,1,1999",
   "3,2A,1D",
   "1,UA,A,x,V,1,0,0,-32767,32767,1,1,p",
   "2,UB,B,x,V,1,0,0,-32767,32767,1,1,p",
   "1,D1,,,0",
   "50",
   "1",
   "1000,3",
   "01/01/2020,00:00:00.000",
   "01/01/2020,00:00:00.000",
   "BINARY",
   "1"]

/-- Three 14-byte records: 8 prefix bytes, two analog words, one packed
digital word with bit 1 set. -/
def demoDatBytes : List ℕ :=
  [0, 0, 0, 0, 0, 0, 0, 0, 0, 0, 100, 0, 2, 0,
   0, 0, 0, 0, 0, 0, 0, 0, 1, 0, 101, 0, 2, 0,
   0, 0, 0, 0, 0, 0, 0, 0, 2, 0, 102, 0, 2, 0]

/-- A filesystem holding the full scenario session `1.cfg` / `1.dat`. -/
def demoFS : FileSystem where
  text := fun p => if p = "1.cfg" then some demoCfgLines else none
  bin := fun p => if p = "1.dat" then some demoDatBytes else none

/-- The same configuration with the binary sibling missing. -/
def demoNoDatFS : FileSystem where
  text := fun p => if p = "1.cfg" then some demoCfgLines else none
  bin := fun _ => none

/-- A filesystem with no files at all. -/
def emptyFS : FileSystem where
  text := fun _ => none
  bin := fun _ => none

/-- A configuration file whose descriptive device-id field is not an
integer literal. -/
def badDevIdFS : FileSystem where
  text := fun p => if p = "b.cfg" then some ["station,notanint,1999"] else none
  bin := fun _ => none

/-- The scenario configuration document. -/
def demoConfig : ComtradeConfig :=
  (mkComtradeConfig demoFS "1.cfg").toOption.getD default

/-- The scenario decoded data state. -/
def demoData : ComtradeDataState :=
  (mkComtradeData demoFS demoConfig).toOption.getD default

/-- The spec's §8 degraded-layout scenario: the channel-layout line declares
`3,1A,1D` (total 3 but only 1 + 1 = 2 channels). -/
def mismatchCfgLines : List String :=
  ["station,1,1999",
   "3,1A,1D",
   "50",
   "1",
   "1000,3",
   "01/01/2020,00:00:00.000",
   "01/01/2020,00:00:00.000",
   "BINARY",
   "1"]


example : mkComtradeConfig demoFS "1.cfg" = .ok demoConfig := by
  decide
example : demoConfig.result = "parsed" := by decide
example : mkComtradeData demoFS demoConfig = .ok demoData := by
  decide
example : demoData.t = .ok [0, 3/2000, 3/1000] := by decide
example : demoData.analogMap =
    [("UA(V)", [0, 1, 2]), ("UB(V)", [100, 101, 102])] := by
  decide
example : demoData.digitalMap = [("D1", [1, 1, 1])] := by decide

/-! Helper lemmas about list lookup and the decode loops. -/

theorem bind_eq_ok {ε α β : Type} {e : Except ε α} {f : α → Except ε β} {b : β} :
    (e >>= f) = .ok b ↔ ∃ a, e = .ok a ∧ f a = .ok b := by
  cases e <;> simp [Bind.bind, Except.bind]

theorem bind_ok_l {ε α β : Type} (a : α) (f : α → Except ε β) :
    ((Except.ok a : Except ε α) >>= f) = f a := rfl

theorem bind_error_l {ε α β : Type} (e : ε) (f : α → Except ε β) :
    ((Except.error e : Except ε α) >>= f) = .error e := rfl

theorem exceptIsOk_false {ε α : Type} {e : Except ε α} :
    exceptIsOk e = false ↔ ∃ err, e = .error err := by
  cases e <;> simp [exceptIsOk]

/-- `str.split` never returns an empty list (Python guarantees at least one
piece). -/
theorem splitOnChar_ne_nil (sep : Char) (cs : List Char) :
    splitOnChar sep cs ≠ [] := by
  induction cs with
  | nil => simp [splitOnChar]
  | cons c cs ih =>
    rw [splitOnChar]
    cases h : splitOnChar sep cs with
    | nil =>
      show (if (c == sep) = true then [[], []] else [[c]]) ≠ []
      split <;> simp
    | cons g gs =>
      show (if (c == sep) = true then [] :: g :: gs else (c :: g) :: gs) ≠ []
      split <;> simp

theorem pySplit_get?_zero (s : String) (sep : Char) :
    ∃ x, (pySplit s sep).get? 0 = some x := by
  unfold pySplit
  cases h : splitOnChar sep s.data with
  | nil => exact absurd h (splitOnChar_ne_nil sep s.data)
  | cons g gs => exact ⟨⟨g⟩, by simp⟩

theorem getItem_ok {α : Type} {xs : List α} {i : ℕ} {x : α} :
    getItem xs i = .ok x ↔ xs.get? i = some x := by
  unfold getItem
  cases h : xs.get? i <;> simp

theorem get?_some_lt {α : Type} {xs : List α} {i : ℕ} {x : α}
    (h : xs.get? i = some x) : i < xs.length := by
  by_contra hlt
  rw [List.get?_eq_none.mpr (by omega)] at h
  exact Option.noConfusion h

theorem get?_set_self {α : Type} (l : List α) (i : ℕ) (a : α) (h : i < l.length) :
    (l.set i a).get? i = some a := by
  simp [List.get?_eq_getElem?, List.getElem?_set_self', h]

theorem get?_set_ne {α : Type} (l : List α) (i j : ℕ) (a : α) (h : i ≠ j) :
    (l.set i a).get? j = l.get? j := by
  simp [List.get?_eq_getElem?, List.getElem?_set_ne h]

/-- What one analog pass over channels `ch, …, ch + k - 1` of a single sample
record does: channels outside the range are untouched, channel `j` inside the
range gets exactly one decoded value appended, read from byte offset
`j * 2 + base`. -/
theorem analogPass_ok {data : List ℕ} {base : ℤ} :
    ∀ (k ch : ℕ) (chans chans' : List AnalogInfo),
    analogPass data base ch k chans = .ok chans' →
    chans'.length = chans.length ∧
    (∀ j, j < ch ∨ ch + k ≤ j → chans'.get? j = chans.get? j) ∧
    (∀ j, ch ≤ j → j < ch + k →
      ∃ c raw, chans.get? j = some c ∧
        readInt16LE data ((j : ℤ) * 2 + base) = .ok raw ∧
        chans'.get? j = some (c.appendData raw)) := by
  intro k
  induction k with
  | zero =>
    intro ch chans chans' h
    simp only [analogPass, Except.ok.injEq] at h
    subst h
    exact ⟨rfl, fun j _ => rfl, fun j h1 h2 => absurd h2 (by omega)⟩
  | succ k ih =>
    intro ch chans chans' h
    rw [analogPass] at h
    cases hr : readInt16LE data ((ch : ℤ) * 2 + base) with
    | error e => rw [hr] at h; simp at h
    | ok raw =>
      rw [hr] at h
      cases hg : getItem chans ch with
      | error e => rw [hg] at h; simp at h
      | ok c =>
        rw [hg] at h
        simp only at h
        obtain ⟨hlen, hunch, htouch⟩ := ih (ch + 1) _ chans' h
        have hc : chans.get? ch = some c := getItem_ok.mp hg
        have hchlt : ch < chans.length := get?_some_lt hc
        refine ⟨?_, ?_, ?_⟩
        · rw [hlen, List.length_set]
        · intro j hj
          have hne : ch ≠ j := by omega
          rw [hunch j (by omega), get?_set_ne _ _ _ _ hne]
        · intro j hj1 hj2
          by_cases hje : j = ch
          · subst hje
            refine ⟨c, raw, hc, hr, ?_⟩
            rw [hunch j (by omega), get?_set_self _ _ _ hchlt]
          · obtain ⟨c₂, raw₂, hc₂, hr₂, hres₂⟩ := htouch j (by omega) (by omega)
            rw [get?_set_ne _ _ _ _ (by omega : ch ≠ j)] at hc₂
            exact ⟨c₂, raw₂, hc₂, hr₂, hres₂⟩

/-- What one digital pass over channels `ch, …, ch + k - 1` of a single
sample record does: channel `j` in the range gets the tested bit of the
packed word read at byte offset `(j / 16) * 2 + base` appended. -/
theorem digitalPass_ok {data : List ℕ} {base : ℤ} :
    ∀ (k ch : ℕ) (chans chans' : List DigitalInfo),
    digitalPass data base ch k chans = .ok chans' →
    chans'.length = chans.length ∧
    (∀ j, j < ch ∨ ch + k ≤ j → chans'.get? j = chans.get? j) ∧
    (∀ j, ch ≤ j → j < ch + k →
      ∃ c raw c₁, chans.get? j = some c ∧
        readInt16LE data (((j / 16 : ℕ) : ℤ) * 2 + base) = .ok raw ∧
        c.appendData raw = .ok c₁ ∧
        chans'.get? j = some c₁) := by
  intro k
  induction k with
  | zero =>
    intro ch chans chans' h
    simp only [digitalPass, Except.ok.injEq] at h
    subst h
    exact ⟨rfl, fun j _ => rfl, fun j h1 h2 => absurd h2 (by omega)⟩
  | succ k ih =>
    intro ch chans chans' h
    rw [digitalPass] at h
    cases hr : readInt16LE data (((ch / 16 : ℕ) : ℤ) * 2 + base) with
    | error e => rw [hr] at h; simp at h
    | ok raw =>
      rw [hr] at h
      cases hg : getItem chans ch with
      | error e => rw [hg] at h; simp at h
      | ok c =>
        rw [hg] at h
        simp only at h
        cases ha : c.appendData raw with
        | error e => rw [ha] at h; simp at h
        | ok c₁ =>
          rw [ha] at h
          simp only at h
          obtain ⟨hlen, hunch, htouch⟩ := ih (ch + 1) _ chans' h
          have hc : chans.get? ch = some c := getItem_ok.mp hg
          have hchlt : ch < chans.length := get?_some_lt hc
          refine ⟨?_, ?_, ?_⟩
          · rw [hlen, List.length_set]
          · intro j hj
            have hne : ch ≠ j := by omega
            rw [hunch j (by omega), get?_set_ne _ _ _ _ hne]
          · intro j hj1 hj2
            by_cases hje : j = ch
            · subst hje
              refine ⟨c, raw, c₁, hc, hr, ha, ?_⟩
              rw [hunch j (by omega), get?_set_self _ _ _ hchlt]
            · obtain ⟨c₂, raw₂, c₃, hc₂, hr₂, ha₂, hres₂⟩ :=
                htouch j (by omega) (by omega)
              rw [get?_set_ne _ _ _ _ (by omega : ch ≠ j)] at hc₂
              exact ⟨c₂, raw₂, c₃, hc₂, hr₂, ha₂, hres₂⟩

/-- Inversion of a successful digital append: the declared index was
non-negative and exactly the tested bit was appended. -/
theorem DigitalInfo.appendData_ok {c : DigitalInfo} {v : ℤ} {c₁ : DigitalInfo}
    (h : c.appendData v = .ok c₁) :
    0 ≤ c.num ∧
    c₁ = { c with dat := c.dat ++
      [if (v.ediv (2 ^ c.num.toNat)).emod 2 ≠ 0 then 1 else 0] } := by
  rw [DigitalInfo.appendData] at h
  split at h
  · exact absurd h (by simp)
  · next hn =>
    simp only [Except.ok.injEq] at h
    exact ⟨by omega, h.symm⟩

/-- What the whole decode loop over samples `i, …, i + k - 1` does to every
active channel (position below the configured channel count): one value per
sample is appended in sample order; the `m`-th appended value comes from the
16-bit word at the source's analog/digital byte offset for sample `i + m`,
put through the linear calibration (analog) or the `value & (1 << num)` bit
test (digital). -/
theorem sampleLoop_ok {data : List ℕ} {u : ℤ} {A D : ℕ} {aBytes : ℤ} :
    ∀ (k i : ℕ) (achans : List AnalogInfo) (dchans : List DigitalInfo)
      (a' : List AnalogInfo) (d' : List DigitalInfo),
    sampleLoop data u A D aBytes i k achans dchans = .ok (a', d') →
    (∀ j c, j < A → achans.get? j = some c →
      ∃ c', a'.get? j = some c' ∧ c'.a = c.a ∧ c'.b = c.b ∧
        c'.dat.length = c.dat.length + k ∧
        (∀ m, m < c.dat.length → c'.dat.get? m = c.dat.get? m) ∧
        (∀ m, m < k → ∃ raw,
          readInt16LE data ((j : ℤ) * 2 + (((i + m : ℕ) : ℤ) * u + 8)) = .ok raw ∧
          c'.dat.get? (c.dat.length + m) = some ((raw : ℚ) * c.a + c.b))) ∧
    (∀ j c, j < D → dchans.get? j = some c →
      ∃ c', d'.get? j = some c' ∧ c'.num = c.num ∧
        c'.dat.length = c.dat.length + k ∧
        (∀ m, m < c.dat.length → c'.dat.get? m = c.dat.get? m) ∧
        (∀ m, m < k → 0 ≤ c.num ∧ ∃ raw,
          readInt16LE data
            (((j / 16 : ℕ) : ℤ) * 2 + (((i + m : ℕ) : ℤ) * u + 8 + aBytes)) = .ok raw ∧
          c'.dat.get? (c.dat.length + m) =
            some (if (raw.ediv (2 ^ c.num.toNat)).emod 2 ≠ 0 then 1 else 0))) := by
  intro k
  induction k with
  | zero =>
    intro i achans dchans a' d' h
    simp only [sampleLoop, Except.ok.injEq, Prod.mk.injEq] at h
    obtain ⟨rfl, rfl⟩ := h
    constructor
    · intro j c _ hc
      exact ⟨c, hc, rfl, rfl, rfl, fun m _ => rfl, fun m hm => absurd hm (by omega)⟩
    · intro j c _ hc
      exact ⟨c, hc, rfl, rfl, fun m _ => rfl, fun m hm => absurd hm (by omega)⟩
  | succ k ih =>
    intro i achans dchans a' d' h
    rw [sampleLoop] at h
    cases hA : analogPass data ((i : ℤ) * u + 8) 0 A achans with
    | error e => rw [hA] at h; simp at h
    | ok a₁ =>
      rw [hA] at h
      simp only at h
      cases hD : digitalPass data ((i : ℤ) * u + 8 + aBytes) 0 D dchans with
      | error e => rw [hD] at h; simp at h
      | ok d₁ =>
        rw [hD] at h
        simp only at h
        obtain ⟨IHa, IHd⟩ := ih (i + 1) a₁ d₁ a' d' h
        obtain ⟨-, -, htouchA⟩ := analogPass_ok A 0 achans a₁ hA
        obtain ⟨-, -, htouchD⟩ := digitalPass_ok D 0 dchans d₁ hD
        constructor
        · intro j c hjA hc
          obtain ⟨c₀, raw, hc₀, hr, hres⟩ := htouchA j (by omega) (by omega)
          rw [hc] at hc₀
          injection hc₀ with hc₀
          subst hc₀
          obtain ⟨c', hgc', ha', hb', hlen', hpre', hnew'⟩ :=
            IHa j (c.appendData raw) hjA hres
          have hdat : (c.appendData raw).dat =
              c.dat ++ [(raw : ℚ) * c.a + c.b] := rfl
          refine ⟨c', hgc', ha', hb', ?_, ?_, ?_⟩
          · rw [hlen', hdat, List.length_append]
            simp
            omega
          · intro m hm
            rw [hpre' m (by rw [hdat, List.length_append]; simp; omega), hdat,
              List.get?_append hm]
          · intro m hm
            cases m with
            | zero =>
              refine ⟨raw, hr, ?_⟩
              have := hpre' c.dat.length
                (by rw [hdat, List.length_append]; simp)
              rw [Nat.add_zero, this, hdat, List.get?_concat_length]
            | succ m =>
              obtain ⟨raw₂, hr₂, hval₂⟩ := hnew' m (by omega)
              rw [show ((i + 1) + m : ℕ) = i + (m + 1) from by omega] at hr₂
              refine ⟨raw₂, hr₂, ?_⟩
              rw [show c.dat.length + (m + 1) =
                (c.appendData raw).dat.length + m from by
                  rw [hdat, List.length_append]; simp; omega]
              exact hval₂
        · intro j c hjD hc
          obtain ⟨c₀, raw, c₁, hc₀, hr, hap, hres⟩ := htouchD j (by omega) (by omega)
          rw [hc] at hc₀
          injection hc₀ with hc₀
          subst hc₀
          obtain ⟨hnum0, hc₁⟩ := DigitalInfo.appendData_ok hap
          subst hc₁
          obtain ⟨c', hgc', hnum', hlen', hpre', hnew'⟩ := IHd j _ hjD hres
          simp only at hnum' hlen' hpre' hnew'
          refine ⟨c', hgc', hnum', ?_, ?_, ?_⟩
          · rw [hlen', List.length_append]
            simp
            omega
          · intro m hm
            rw [hpre' m (by rw [List.length_append]; simp; omega),
              List.get?_append hm]
          · intro m hm
            refine ⟨hnum0, ?_⟩
            cases m with
            | zero =>
              refine ⟨raw, hr, ?_⟩
              have := hpre' c.dat.length (by rw [List.length_append]; simp)
              rw [Nat.add_zero, this, List.get?_concat_length]
            | succ m =>
              obtain ⟨-, raw₂, hr₂, hval₂⟩ := hnew' m (by omega)
              rw [show ((i + 1) + m : ℕ) = i + (m + 1) from by omega] at hr₂
              refine ⟨raw₂, hr₂, ?_⟩
              rw [show c.dat.length + (m + 1) =
                (c.dat ++ [if (raw.ediv (2 ^ c.num.toNat)).emod 2 ≠ 0
                  then 1 else 0]).length + m from by
                  rw [List.length_append]; simp; omega]
              exact hval₂

theorem readUInt16LE_lt {data : List ℕ} {idx : ℤ} {w : ℕ}
    (h : readUInt16LE data idx = .ok w) : w < 65536 := by
  unfold readUInt16LE at h
  split at h
  · simp only [Except.ok.injEq] at h
    omega
  · simp at h

/-- A successful signed 16-bit read is the two's-complement view of the
unsigned word at the same offset. -/
theorem readInt16LE_ok {data : List ℕ} {idx : ℤ} {v : ℤ} :
    readInt16LE data idx = .ok v ↔
    ∃ w, readUInt16LE data idx = .ok w ∧ v = toSigned16 w := by
  unfold readInt16LE
  cases h : readUInt16LE data idx with
  | error e => simp
  | ok w => simp [eq_comm]

/-- For a bit position below 16, the Python truthiness test
`value & (1 << n)` on the signed 16-bit value agrees with bit `n` of the
unsigned word it was decoded from. -/
theorem int_ediv_eq_div (a b : ℤ) : a.ediv b = a / b := rfl

theorem int_emod_eq_mod (a b : ℤ) : a.emod b = a % b := rfl

theorem toSigned16_testBit {w : ℕ} (hw : w < 65536) {n : ℕ} (hn : n < 16) :
    ((toSigned16 w).ediv (2 ^ n)).emod 2 ≠ 0 ↔ Nat.testBit w n = true := by
  have hcast : ((2 : ℤ) ^ n) = ((2 ^ n : ℕ) : ℤ) := by push_cast; ring
  rw [Nat.testBit_to_div_mod]
  simp only [decide_eq_true_eq, int_ediv_eq_div, int_emod_eq_mod]
  unfold toSigned16
  rw [Nat.mod_eq_of_lt hw]
  by_cases hlt : w < 32768
  · rw [if_pos hlt, show ((w : ℤ) % 65536) = (w : ℤ) from by omega, hcast,
      show ((w : ℤ)) / ((2 ^ n : ℕ) : ℤ) = ((w / 2 ^ n : ℕ) : ℤ) from rfl,
      show (((w / 2 ^ n : ℕ) : ℤ)) % 2 = ((w / 2 ^ n % 2 : ℕ) : ℤ) from rfl]
    omega
  · rw [if_neg hlt, show ((w : ℤ) % 65536) = (w : ℤ) from by omega]
    have hsplit : ((w : ℤ) - 65536) = (w : ℤ) + (-((2 : ℤ) ^ (16 - n))) * 2 ^ n := by
      have hpow : ((2 : ℤ) ^ (16 - n)) * 2 ^ n = 65536 := by
        rw [← pow_add, show 16 - n + n = 16 from by omega]
        norm_num
      calc ((w : ℤ) - 65536) = (w : ℤ) - ((2 : ℤ) ^ (16 - n)) * 2 ^ n := by rw [hpow]
        _ = (w : ℤ) + (-((2 : ℤ) ^ (16 - n))) * 2 ^ n := by ring
    rw [hsplit, Int.add_mul_ediv_right _ _ (by positivity : ((2 : ℤ) ^ n) ≠ 0),
      hcast, show ((w : ℤ)) / ((2 ^ n : ℕ) : ℤ) = ((w / 2 ^ n : ℕ) : ℤ) from rfl]
    have heven : ((2 : ℤ) ^ (16 - n)) % 2 = 0 := by
      rw [show (16 - n) = (15 - n) + 1 from by omega, pow_succ]
      exact Int.mul_emod_left _ 2
    generalize hq : (w / 2 ^ n : ℕ) = q
    generalize hY : ((2 : ℤ) ^ (16 - n)) = Y at heven
    omega

/-- Inversion of a successful binary decode: the first sample segment
existed, its rate was non-zero, the decode loop ran over `end` samples
starting from the configuration's descriptor lists, and the resulting state
is exactly the record built by the source. -/
theorem decodeBytes_ok {cfg : ComtradeConfig} {data : List ℕ} {p : String}
    {st : ComtradeDataState} (h : decodeBytes cfg data p = .ok st) :
    ∃ seg aC dC,
      getItem cfg.sampleInfo 0 = .ok seg ∧ ¬seg.rate = 0 ∧
      sampleLoop data (unitSizeOf cfg.channelInfo.analog cfg.channelInfo.digital)
        cfg.channelInfo.analog.toNat cfg.channelInfo.digital.toNat
        (2 * cfg.channelInfo.analog) 0 seg.endIdx.toNat
        cfg.analogInfo cfg.digitalInfo = .ok (aC, dC) ∧
      st = { result := "parsed", path := p,
             unitSize := unitSizeOf cfg.channelInfo.analog cfg.channelInfo.digital,
             sampleCount := seg.endIdx, deltaT := 1 / seg.rate,
             analogChans := aC, digitalChans := dC,
             analogMap := aC.foldl (fun m c =>
               pyDictInsert m (c.ch_id ++ "(" ++ c.unit ++ ")") c.dat) [],
             digitalMap := dC.foldl (fun m c => pyDictInsert m c.ch_id c.dat) [] } := by
  unfold decodeBytes at h
  cases hseg : getItem cfg.sampleInfo 0 with
  | error e => rw [hseg] at h; simp at h
  | ok seg =>
    rw [hseg] at h
    simp only at h
    split at h
    · simp at h
    · next hrate =>
      cases hsl : sampleLoop data
          (unitSizeOf cfg.channelInfo.analog cfg.channelInfo.digital)
          cfg.channelInfo.analog.toNat cfg.channelInfo.digital.toNat
          (2 * cfg.channelInfo.analog) 0 seg.endIdx.toNat
          cfg.analogInfo cfg.digitalInfo with
      | error e => rw [hsl] at h; simp at h
      | ok pair =>
        obtain ⟨aC, dC⟩ := pair
        rw [hsl] at h
        simp only [Except.ok.injEq] at h
        exact ⟨seg, aC, dC, rfl, hrate, hsl, h.symm⟩

/-- Shared helper: the analog buffer entry for active channel `ch` at sample
`i` is the calibrated value of the signed word read at the analog offset. -/
theorem decode_analog_entry
    (cfg : ComtradeConfig) (data : List ℕ) (p : String) (st : ComtradeDataState)
    (ch : ℕ) (info : AnalogInfo) (i : ℕ)
    (hok : decodeBytes cfg data p = .ok st)
    (hch : cfg.analogInfo.get? ch = some info)
    (hActive : (ch : ℤ) < cfg.channelInfo.analog)
    (hEmpty : info.dat = [])
    (hi : i < st.sampleCount.toNat) :
    ∃ c raw, st.analogChans.get? ch = some c ∧
      readInt16LE data ((i : ℤ) * st.unitSize + 8 + 2 * (ch : ℤ)) = .ok raw ∧
      c.dat.get? i = some ((raw : ℚ) * info.a + info.b) := by
  obtain ⟨seg, aC, dC, hseg, hrate, hsl, hst⟩ := decodeBytes_ok hok
  subst hst
  simp only at hi ⊢
  obtain ⟨IHa, -⟩ := sampleLoop_ok _ 0 _ _ _ _ hsl
  have hchA : ch < cfg.channelInfo.analog.toNat := by omega
  obtain ⟨c, hgc, ha, hb, hlen, hpre, hnew⟩ := IHa ch info hchA hch
  obtain ⟨raw, hr, hval⟩ := hnew i (by omega)
  simp only [Nat.zero_add] at hr
  rw [hEmpty] at hval
  simp only [List.length_nil, Nat.zero_add] at hval
  have hr' : readInt16LE data
      ((i : ℤ) * unitSizeOf cfg.channelInfo.analog cfg.channelInfo.digital
        + 8 + 2 * (ch : ℤ)) = .ok raw := by
    rw [show (i : ℤ) * unitSizeOf cfg.channelInfo.analog cfg.channelInfo.digital
        + 8 + 2 * (ch : ℤ) =
      (ch : ℤ) * 2 + ((i : ℤ) * unitSizeOf cfg.channelInfo.analog
        cfg.channelInfo.digital + 8) from by ring]
    exact hr
  exact ⟨c, raw, hgc, hr', hval⟩

/-- Shared helper: the digital buffer entry for active channel `ch` at sample
`i` is the tested bit of the unsigned packed word read at the digital
offset, for a declared index below 16 (a successful decode already forces
the index to be non-negative, since a negative shift count raises). -/
theorem decode_digital_entry
    (cfg : ComtradeConfig) (data : List ℕ) (p : String) (st : ComtradeDataState)
    (ch : ℕ) (info : DigitalInfo) (i : ℕ)
    (hok : decodeBytes cfg data p = .ok st)
    (hch : cfg.digitalInfo.get? ch = some info)
    (hActive : (ch : ℤ) < cfg.channelInfo.digital)
    (hEmpty : info.dat = [])
    (hNum16 : info.num < 16)
    (hi : i < st.sampleCount.toNat) :
    ∃ c w, st.digitalChans.get? ch = some c ∧
      readUInt16LE data ((i : ℤ) * st.unitSize + 8 + 2 * cfg.channelInfo.analog
        + 2 * ((ch / 16 : ℕ) : ℤ)) = .ok w ∧
      c.dat.get? i = some (if Nat.testBit w info.num.toNat then 1 else 0) ∧
      (∀ v, c.dat.get? i = some v → v = 0 ∨ v = 1) := by
  obtain ⟨seg, aC, dC, hseg, hrate, hsl, hst⟩ := decodeBytes_ok hok
  subst hst
  simp only at hi ⊢
  obtain ⟨-, IHd⟩ := sampleLoop_ok _ 0 _ _ _ _ hsl
  have hchD : ch < cfg.channelInfo.digital.toNat := by omega
  obtain ⟨c, hgc, hnum, hlen, hpre, hnew⟩ := IHd ch info hchD hch
  obtain ⟨-, raw, hr, hval⟩ := hnew i (by omega)
  simp only [Nat.zero_add] at hr
  rw [hEmpty] at hval
  simp only [List.length_nil, Nat.zero_add] at hval
  obtain ⟨w, hw, rfl⟩ := readInt16LE_ok.mp hr
  have hwlt : w < 65536 := readUInt16LE_lt hw
  have hbit := toSigned16_testBit hwlt (n := info.num.toNat) (by omega)
  have hw' : readUInt16LE data
      ((i : ℤ) * unitSizeOf cfg.channelInfo.analog cfg.channelInfo.digital
        + 8 + 2 * cfg.channelInfo.analog + 2 * ((ch / 16 : ℕ) : ℤ)) = .ok w := by
    rw [show (i : ℤ) * unitSizeOf cfg.channelInfo.analog cfg.channelInfo.digital
        + 8 + 2 * cfg.channelInfo.analog + 2 * ((ch / 16 : ℕ) : ℤ) =
      ((ch / 16 : ℕ) : ℤ) * 2 + ((i : ℤ) * unitSizeOf cfg.channelInfo.analog
        cfg.channelInfo.digital + 8 + 2 * cfg.channelInfo.analog) from by ring]
    exact hw
  refine ⟨c, w, hgc, hw', ?_, ?_⟩
  · rw [hval, if_congr hbit rfl rfl]
  · intro v hv
    rw [hval] at hv
    injection hv with hv
    subst hv
    split <;> simp

/-- Shared helper: the packed digital word covering active channel `ch` is
read successfully at the digital offset for every decoded sample (no
restriction on the declared index here). -/
theorem decode_digital_word
    (cfg : ComtradeConfig) (data : List ℕ) (p : String) (st : ComtradeDataState)
    (ch : ℕ) (info : DigitalInfo) (i : ℕ)
    (hok : decodeBytes cfg data p = .ok st)
    (hch : cfg.digitalInfo.get? ch = some info)
    (hActive : (ch : ℤ) < cfg.channelInfo.digital)
    (hi : i < st.sampleCount.toNat) :
    ∃ w, readUInt16LE data ((i : ℤ) * st.unitSize + 8
      + 2 * cfg.channelInfo.analog + 2 * ((ch / 16 : ℕ) : ℤ)) = .ok w := by
  obtain ⟨seg, aC, dC, hseg, hrate, hsl, hst⟩ := decodeBytes_ok hok
  subst hst
  simp only at hi ⊢
  obtain ⟨-, IHd⟩ := sampleLoop_ok _ 0 _ _ _ _ hsl
  have hchD : ch < cfg.channelInfo.digital.toNat := by omega
  obtain ⟨c, hgc, hnum, hlen, hpre, hnew⟩ := IHd ch info hchD hch
  obtain ⟨-, raw, hr, hval⟩ := hnew i (by omega)
  simp only [Nat.zero_add] at hr
  obtain ⟨w, hw, rfl⟩ := readInt16LE_ok.mp hr
  refine ⟨w, ?_⟩
  rw [show (i : ℤ) * unitSizeOf cfg.channelInfo.analog cfg.channelInfo.digital
      + 8 + 2 * cfg.channelInfo.analog + 2 * ((ch / 16 : ℕ) : ℤ) =
    ((ch / 16 : ℕ) : ℤ) * 2 + ((i : ℤ) * unitSizeOf cfg.channelInfo.analog
      cfg.channelInfo.digital + 8 + 2 * cfg.channelInfo.analog) from by ring]
  exact hw

/-- Claim C2: for every analog channel descriptor with calibration constants
`a` and `b` (buffer initially empty, as `__init__` leaves it), and every
sample index `i`, the decoded physical value stored at position `i` of that
channel's buffer equals `raw[i] * a + b`, where `raw[i]` is the 16-bit
signed integer read for that channel at sample `i`. -/
theorem C2_analog_calibration
    (cfg : ComtradeConfig) (data : List ℕ) (p : String) (st : ComtradeDataState)
    (ch : ℕ) (info : AnalogInfo) (i : ℕ)
    (hok : decodeBytes cfg data p = .ok st)
    (hch : cfg.analogInfo.get? ch = some info)
    (hActive : (ch : ℤ) < cfg.channelInfo.analog)
    (hEmpty : info.dat = [])
    (hi : i < st.sampleCount.toNat) :
    ∃ c raw, st.analogChans.get? ch = some c ∧
      readInt16LE data ((i : ℤ) * st.unitSize + 8 + 2 * (ch : ℤ)) = .ok raw ∧
      c.dat.get? i = some ((raw : ℚ) * info.a + info.b) :=
  decode_analog_entry cfg data p st ch info i hok hch hActive hEmpty hi

/-- Claim C3: for every digital channel descriptor whose declared index is
`< 16` (buffer initially empty), and every sample, the
decoded value is `1` if bit `index` of the covering 16-bit packed word is
set and `0` otherwise; in particular it is always `0` or `1`. -/
theorem C3_digital_bit
    (cfg : ComtradeConfig) (data : List ℕ) (p : String) (st : ComtradeDataState)
    (ch : ℕ) (info : DigitalInfo) (i : ℕ)
    (hok : decodeBytes cfg data p = .ok st)
    (hch : cfg.digitalInfo.get? ch = some info)
    (hActive : (ch : ℤ) < cfg.channelInfo.digital)
    (hEmpty : info.dat = [])
    (hNum16 : info.num < 16)
    (hi : i < st.sampleCount.toNat) :
    ∃ c w, st.digitalChans.get? ch = some c ∧
      readUInt16LE data ((i : ℤ) * st.unitSize + 8 + 2 * cfg.channelInfo.analog
        + 2 * ((ch / 16 : ℕ) : ℤ)) = .ok w ∧
      c.dat.get? i = some (if Nat.testBit w info.num.toNat then 1 else 0) ∧
      (∀ v, c.dat.get? i = some v → v = 0 ∨ v = 1) :=
  decode_digital_entry cfg data p st ch info i hok hch hActive hEmpty hNum16 hi

/-- Claim C4: the decoder walks the byte buffer with fixed record stride
`unitSize = 8 + 2*A + 2*ceil(D/16)` (digital term `0` when `D = 0`), reading
the analog word for 0-based channel `ch` of sample `i` as a little-endian
signed 16-bit integer at offset `i*unitSize + 8 + 2*ch` and feeding it into
that channel's buffer, and the packed digital word for 0-based channel `ch`
at offset `i*unitSize + 8 + 2*A + 2*(ch // 16)`. -/
theorem C4_record_geometry
    (cfg : ComtradeConfig) (data : List ℕ) (p : String) (st : ComtradeDataState)
    (hok : decodeBytes cfg data p = .ok st) :
    st.unitSize = 8 + 2 * cfg.channelInfo.analog
      + 2 * ((cfg.channelInfo.digital + 15) / 16) ∧
    (∀ ch info i, cfg.analogInfo.get? ch = some info →
      (ch : ℤ) < cfg.channelInfo.analog → info.dat = [] → i < st.sampleCount.toNat →
      ∃ c raw, st.analogChans.get? ch = some c ∧
        readInt16LE data ((i : ℤ) * st.unitSize + 8 + 2 * (ch : ℤ)) = .ok raw ∧
        c.dat.get? i = some ((raw : ℚ) * info.a + info.b)) ∧
    (∀ ch info i, cfg.digitalInfo.get? ch = some info →
      (ch : ℤ) < cfg.channelInfo.digital → info.dat = [] → i < st.sampleCount.toNat →
      ∃ w, readUInt16LE data ((i : ℤ) * st.unitSize + 8
        + 2 * cfg.channelInfo.analog + 2 * ((ch / 16 : ℕ) : ℤ)) = .ok w) := by
  refine ⟨?_, ?_, ?_⟩
  · obtain ⟨seg, aC, dC, hseg, hrate, hsl, hst⟩ := decodeBytes_ok hok
    subst hst
    simp only [unitSizeOf, digitalBytesLenOf, int_ediv_eq_div, int_emod_eq_mod]
    split <;> rename_i hmod <;> omega
  · intro ch info i hch hActive hEmpty hi
    exact decode_analog_entry cfg data p st ch info i hok hch hActive hEmpty hi
  · intro ch info i hch hActive hEmpty hi
    exact decode_digital_word cfg data p st ch info i hok hch hActive hi

/-- The first analog descriptor of the scenario configuration. -/
def demoUA : AnalogInfo :=
  ⟨1, "UA", "A", "x", "V", 1, 0, 0, -32767, 32767, 1, 1, "p", []⟩

/-- The digital descriptor of the scenario configuration. -/
def demoD1 : DigitalInfo := ⟨1, "D1", "", "", 0, []⟩

/-- Claim C1 (code bug, evaluated at the failing input): for the spec's own
scenario (rate = 1000, first-segment end = 3) the claim requires the time
vector `[0, 0.001, 0.002]` with spacing `1/rate`; the source computes
`np.linspace(0.0, deltaT * sampleCount, sampleCount)`, whose inclusive
endpoint makes the spacing `deltaT * n / (n - 1)`: the decoder returns
`[0, 0.0015, 0.003]`.  Entry count, first entry `0` and strict monotonicity
hold, the spacing clause does not. -/
theorem C1_time_vector_linspace_endpoint :
    mkComtradeConfig demoFS "1.cfg" = .ok demoConfig ∧
    demoConfig.sampleInfo = [⟨1000, 3⟩] ∧
    mkComtradeData demoFS demoConfig = .ok demoData ∧
    demoData.deltaT = 1 / 1000 ∧ demoData.sampleCount = 3 ∧
    demoData.t = .ok [0, 3 / 2000, 3 / 1000] ∧
    demoData.t ≠ .ok [0, 1 / 1000, 2 / 1000] := by decide

/-- Witness for C2 at the scenario session: analog channel 0, sample 1. -/
theorem C2_analog_calibration_witness :
    ∃ c raw, demoData.analogChans.get? 0 = some c ∧
      readInt16LE demoDatBytes
        ((1 : ℤ) * demoData.unitSize + 8 + 2 * ((0 : ℕ) : ℤ)) = .ok raw ∧
      c.dat.get? 1 = some ((raw : ℚ) * demoUA.a + demoUA.b) :=
  C2_analog_calibration demoConfig demoDatBytes "1.dat" demoData 0 demoUA 1
    (by decide) (by decide) (by decide) (by decide) (by decide)

/-- Witness for C3 at the scenario session: digital channel 0, sample 2. -/
theorem C3_digital_bit_witness :
    ∃ c w, demoData.digitalChans.get? 0 = some c ∧
      readUInt16LE demoDatBytes ((2 : ℤ) * demoData.unitSize + 8
        + 2 * demoConfig.channelInfo.analog + 2 * (((0 / 16 : ℕ)) : ℤ)) = .ok w ∧
      c.dat.get? 2 = some (if Nat.testBit w demoD1.num.toNat then 1 else 0) ∧
      (∀ v, c.dat.get? 2 = some v → v = 0 ∨ v = 1) :=
  C3_digital_bit demoConfig demoDatBytes "1.dat" demoData 0 demoD1 2
    (by decide) (by decide) (by decide) (by decide) (by decide) (by decide)

/-- Witness for C4 at the scenario session. -/
theorem C4_record_geometry_witness :
    demoData.unitSize = 8 + 2 * demoConfig.channelInfo.analog
      + 2 * ((demoConfig.channelInfo.digital + 15) / 16) ∧
    (∀ ch info i, demoConfig.analogInfo.get? ch = some info →
      (ch : ℤ) < demoConfig.channelInfo.analog → info.dat = [] →
      i < demoData.sampleCount.toNat →
      ∃ c raw, demoData.analogChans.get? ch = some c ∧
        readInt16LE demoDatBytes
          ((i : ℤ) * demoData.unitSize + 8 + 2 * (ch : ℤ)) = .ok raw ∧
        c.dat.get? i = some ((raw : ℚ) * info.a + info.b)) ∧
    (∀ ch info i, demoConfig.digitalInfo.get? ch = some info →
      (ch : ℤ) < demoConfig.channelInfo.digital → info.dat = [] →
      i < demoData.sampleCount.toNat →
      ∃ w, readUInt16LE demoDatBytes ((i : ℤ) * demoData.unitSize + 8
        + 2 * demoConfig.channelInfo.analog + 2 * ((ch / 16 : ℕ) : ℤ)) = .ok w) :=
  C4_record_geometry demoConfig demoDatBytes "1.dat" demoData (by decide)

/-- The configuration document built from the degraded-layout scenario. -/
def demoMismatchConfig : ComtradeConfig :=
  (parseConfig "m.cfg" mismatchCfgLines).toOption.getD default

/-- Claim C5: every successfully parsed channel-layout line satisfies
`total = analog + digital` or collapses to all-zero counts; the line
`3,1A,1D` collapses to `(0, 0, 0)`, and a configuration built from a file
with that layout line has empty analog and digital descriptor sequences. -/
theorem C5_channel_layout :
    (∀ s ci, mkChannelInfo s = .ok ci →
      ci.total = ci.analog + ci.digital ∨
      (ci.total = 0 ∧ ci.analog = 0 ∧ ci.digital = 0)) ∧
    mkChannelInfo "3,1A,1D" = .ok ⟨0, 0, 0⟩ ∧
    (parseConfig "m.cfg" mismatchCfgLines = .ok demoMismatchConfig ∧
      demoMismatchConfig.channelInfo = ⟨0, 0, 0⟩ ∧
      demoMismatchConfig.analogInfo = [] ∧ demoMismatchConfig.digitalInfo = []) := by
  refine ⟨?_, by decide, by decide, by decide, by decide, by decide⟩
  intro s ci h
  simp only [mkChannelInfo] at h
  cases h0 : getItem (pySplit (pyRemove s "\n") ',') 0 with
  | error e => rw [h0, bind_error_l] at h; simp at h
  | ok f0 =>
  rw [h0, bind_ok_l] at h
  cases h1 : pyInt f0 with
  | error e => rw [h1, bind_error_l] at h; simp at h
  | ok total =>
  rw [h1, bind_ok_l] at h
  cases h2 : getItem (pySplit (pyRemove s "\n") ',') 1 with
  | error e => rw [h2, bind_error_l] at h; simp at h
  | ok f1 =>
  rw [h2, bind_ok_l] at h
  cases hA : analogCountField f1 with
  | error e => rw [hA, bind_error_l] at h; simp at h
  | ok analog =>
  rw [hA, bind_ok_l] at h
  cases h3 : getItem (pySplit (pyRemove s "\n") ',') 2 with
  | error e => rw [h3, bind_error_l] at h; simp at h
  | ok f2 =>
  rw [h3, bind_ok_l] at h
  cases hD : digitalCountField f2 with
  | error e => rw [hD, bind_error_l] at h; simp at h
  | ok digital =>
  rw [hD, bind_ok_l] at h
  split at h
  · simp only [Except.ok.injEq] at h
    subst h
    exact Or.inr ⟨rfl, rfl, rfl⟩
  · next hne =>
    simp only [Except.ok.injEq] at h
    subst h
    refine Or.inl ?_
    show total = analog + digital
    omega

/-- Witness for C5's universal part at a concrete consistent layout line. -/
theorem C5_channel_layout_witness :
    mkChannelInfo "5,2A,3D" = .ok ⟨5, 2, 3⟩ ∧
    ((5 : ℤ) = 2 + 3 ∨ ((5 : ℤ) = 0 ∧ (2 : ℤ) = 0 ∧ (3 : ℤ) = 0)) :=
  ⟨by decide, C5_channel_layout.1 "5,2A,3D" ⟨5, 2, 3⟩ (by decide)⟩

/-- Claim C7: a successfully parsed configuration whose binary sibling does
not exist gives a data stage with status `no file`, empty analog and digital
mappings, and a zero-length time vector; decoding a configuration that
itself failed likewise produces no data (status stays `none`). -/
theorem C7_missing_dat
    (sys : FileSystem) (cfg : ComtradeConfig)
    (h : (cfg.result = "parsed" ∧ sys.bin (datPath cfg.path) = none) ∨
      cfg.result ≠ "parsed") :
    ∃ d, mkComtradeData sys cfg = .ok d ∧
      d.analog = [] ∧ d.digital = [] ∧ d.t = .ok [] ∧
      (cfg.result = "parsed" → d.result = "no file") ∧
      (cfg.result ≠ "parsed" → d.result = "none") := by
  unfold mkComtradeData
  rcases h with ⟨hp, hb⟩ | hnp
  · rw [if_neg (by simp [hp]), hb]
    refine ⟨_, rfl, ?_, ?_, ?_, fun _ => rfl, fun hc => absurd hp hc⟩
    · simp [ComtradeDataState.analog]
    · simp [ComtradeDataState.digital]
    · simp [ComtradeDataState.t]
  · rw [if_pos hnp]
    refine ⟨_, rfl, ?_, ?_, ?_, fun hc => absurd hc hnp, fun _ => rfl⟩
    · simp [ComtradeDataState.analog]
    · simp [ComtradeDataState.digital]
    · simp [ComtradeDataState.t]

/-- Witness for C7 at the scenario configuration with the binary sibling
missing. -/
theorem C7_missing_dat_witness :
    (demoConfig.result = "parsed" ∧
      demoNoDatFS.bin (datPath demoConfig.path) = none) ∧
    ∃ d, mkComtradeData demoNoDatFS demoConfig = .ok d ∧
      d.analog = [] ∧ d.digital = [] ∧ d.t = .ok [] ∧
      (demoConfig.result = "parsed" → d.result = "no file") ∧
      (demoConfig.result ≠ "parsed" → d.result = "none") :=
  ⟨⟨by decide, by decide⟩,
    C7_missing_dat demoNoDatFS demoConfig (Or.inl ⟨by decide, by decide⟩)⟩

/-- Claim C8: the decoder's outputs do not depend on the declared
data-encoding token: two configurations identical except for `dataFormat`,
decoded against the same filesystem (hence the same binary bytes), produce
the same data state, hence identical time vectors and channel mappings. -/
theorem C8_encoding_token_ignored
    (sys : FileSystem) (cfg : ComtradeConfig) (tok : String) :
    mkComtradeData sys { cfg with dataFormat := tok } = mkComtradeData sys cfg ∧
    (mkComtradeData sys { cfg with dataFormat := tok }).map ComtradeDataState.t
      = (mkComtradeData sys cfg).map ComtradeDataState.t ∧
    (mkComtradeData sys { cfg with dataFormat := tok }).map ComtradeDataState.analog
      = (mkComtradeData sys cfg).map ComtradeDataState.analog ∧
    (mkComtradeData sys { cfg with dataFormat := tok }).map ComtradeDataState.digital
      = (mkComtradeData sys cfg).map ComtradeDataState.digital := by
  cases cfg
  exact ⟨rfl, rfl, rfl, rfl⟩

/-- Counterexample to claim C6 as stated: a configuration file that exists
but whose device-id field is not an integer literal makes the builder raise
(`ValueError`, modelled as `Except.error`) instead of reporting the failure
through its status. -/
theorem C6_counterexample :
    badDevIdFS.text "b.cfg" ≠ none ∧
    exceptIsOk (mkComtradeConfig badDevIdFS "b.cfg") = false := by decide

/-- Claim C6, amended: the builder reports a missing configuration file
through its status (`no file`) with no document content, and decoding such a
configuration yields empty analog and digital mappings; a source that parses
fully yields status `parsed`; but a malformed numeric field (for example a
non-integer device id) raises an exception instead of being reported through
the status. -/
theorem C6_status_reporting_amended :
    (∀ sys path, sys.text path = none →
      mkComtradeConfig sys path = .ok { path := path, result := "no file" }) ∧
    (∀ path lines cfg, parseConfig path lines = .ok cfg → cfg.result = "parsed") ∧
    (∀ sys cfg, cfg.result = "no file" →
      ∃ d, mkComtradeData sys cfg = .ok d ∧ d.analog = [] ∧ d.digital = []) ∧
    exceptIsOk (mkComtradeConfig badDevIdFS "b.cfg") = false := by
  refine ⟨?_, ?_, ?_, by decide⟩
  · intro sys path h
    unfold mkComtradeConfig
    rw [h]
  · intro path lines cfg h
    simp only [parseConfig, bind_eq_ok] at h
    obtain ⟨a1, -, a2, -, a3, -, a4, -, a5, -, a6, -, a7, -, a8, -, a9, -, a10, -,
      a11, -, a12, -, a13, -, a14, -, a15, -, a16, -, a17, -, a18, -, hfin⟩ := h
    simp only [Except.ok.injEq] at hfin
    subst hfin
    rfl
  · intro sys cfg h
    unfold mkComtradeData
    rw [if_pos (by simp [h])]
    refine ⟨_, rfl, ?_, ?_⟩
    · simp [ComtradeDataState.analog]
    · simp [ComtradeDataState.digital]

/-- Witness for C6's amended statement at concrete inputs: a missing file, a
fully parsed source, and a decode from the missing-file configuration. -/
theorem C6_status_reporting_amended_witness :
    mkComtradeConfig emptyFS "x.cfg" = .ok { path := "x.cfg", result := "no file" } ∧
    demoConfig.result = "parsed" ∧
    (∃ d, mkComtradeData emptyFS { path := "x.cfg", result := "no file" } = .ok d ∧
      d.analog = [] ∧ d.digital = []) :=
  ⟨C6_status_reporting_amended.1 emptyFS "x.cfg" (by decide),
   C6_status_reporting_amended.2.1 "1.cfg" (removeNextline demoCfgLines) demoConfig
     (by decide),
   C6_status_reporting_amended.2.2.1 emptyFS { path := "x.cfg", result := "no file" }
     (by decide)⟩

/-- The fully decoded scenario parser session. -/
def demoParser : ComtradeParserState :=
  (mkComtradeParser demoFS "1.cfg").toOption.getD default

/-- The scenario parser session with the binary sibling missing. -/
def demoParserNoDat : ComtradeParserState :=
  (mkComtradeParser demoNoDatFS "1.cfg").toOption.getD default

/-- Counterexample to claim C9 as stated: a path naming neither a `.cfg` nor
a `.dat` file completes construction without raising, yet its result is the
`not a comtrade file` tag, not `parsed`. -/
theorem C9_counterexample :
    mkComtradeParser emptyFS "notes.txt" =
      .ok { result := "not a comtrade file: notes.txt" } ∧
    ("not a comtrade file: notes.txt" : String) ≠ "parsed" := by decide

/-- Claim C9, amended: whenever `ComtradeParser` construction completes
without raising on a path that names a comtrade file (contains `.cfg` or
`.dat`), the top-level result is `parsed` even if the binary sibling was
missing; a caller who inspects only the top-level status cannot distinguish
a fully decoded session from one whose data stage failed and whose mappings
and time vector are empty (both concrete sessions below report `parsed`).
For other paths construction completes with the `not a comtrade file` tag. -/
theorem C9_top_level_status_amended :
    (∀ sys path st, (pyInStr ".cfg" path || pyInStr ".dat" path) = true →
      mkComtradeParser sys path = .ok st → st.result = "parsed") ∧
    (∃ st, mkComtradeParser demoNoDatFS "1.cfg" = .ok st ∧ st.result = "parsed" ∧
      st.dat.result = "no file" ∧ st.analog = [] ∧ st.digital = [] ∧ st.t = []) ∧
    (∃ st, mkComtradeParser demoFS "1.cfg" = .ok st ∧ st.result = "parsed" ∧
      st.dat.result = "parsed" ∧ st.analog ≠ [] ∧ st.t ≠ []) := by
  refine ⟨?_, ?_, ?_⟩
  · intro sys path st hpath h
    unfold mkComtradeParser at h
    rw [if_neg (by
      cases hc : pyInStr ".cfg" path <;> cases hd : pyInStr ".dat" path <;>
        simp_all)] at h
    simp only at h
    generalize (if (!pyInStr ".cfg" path) = true then pyRemove path ".dat"
      else pyRemove path ".cfg") = base at h
    cases hcfg : mkComtradeConfig sys (base ++ ".cfg") with
    | error e => rw [hcfg] at h; simp at h
    | ok config =>
    rw [hcfg] at h
    simp only at h
    cases hdat : mkComtradeData sys config with
    | error e => rw [hdat] at h; simp at h
    | ok dat =>
    rw [hdat] at h
    simp only at h
    cases ht : dat.t with
    | error e => rw [ht] at h; simp at h
    | ok t =>
    rw [ht] at h
    simp only at h
    cases hseg : getItem config.sampleInfo 0 with
    | error e => rw [hseg] at h; simp at h
    | ok seg =>
    rw [hseg] at h
    simp only [Except.ok.injEq] at h
    subst h
    rfl
  · exact ⟨demoParserNoDat, by decide, by decide, by decide, by decide, by decide,
      by decide⟩
  · exact ⟨demoParser, by decide, by decide, by decide, by decide, by decide⟩

/-- Witness for C9's amended universal part at the decoded scenario
session. -/
theorem C9_top_level_status_amended_witness :
    (pyInStr ".cfg" "1.cfg" || pyInStr ".dat" "1.cfg") = true ∧
    demoParser.result = "parsed" :=
  ⟨by decide,
   C9_top_level_status_amended.1 demoFS "1.cfg" demoParser (by decide) (by decide)⟩

/-- Claim C10: the file-identity parser feeds the second comma-delimited
field (the descriptive recording-device identifier) to `int(...)`; whenever
that field is not an integer literal, `FileInfo` construction raises and
configuration construction fails at the file-identity stage, whatever the
remaining lines hold. -/
theorem C10_device_id_integer
    (line f : String) (rest : List String)
    (hf : (pySplit (pyRemove line "\n") ',').get? 1 = some f)
    (hbad : exceptIsOk (pyInt f) = false) :
    exceptIsOk (mkFileInfo line) = false ∧
    (∀ path, exceptIsOk (parseConfig path (line :: rest)) = false) := by
  obtain ⟨e, he⟩ := exceptIsOk_false.mp hbad
  obtain ⟨s₀, hs₀⟩ := pySplit_get?_zero (pyRemove line "\n") ','
  have hFI : mkFileInfo line = .error e := by
    simp only [mkFileInfo, getItem_ok.mpr hs₀, bind_ok_l, getItem_ok.mpr hf, he,
      bind_error_l]
  refine ⟨by rw [hFI]; rfl, fun path => ?_⟩
  have hPC : parseConfig path (line :: rest) = .error e := by
    simp only [parseConfig, show getItem (line :: rest) 0 = .ok line from rfl,
      bind_ok_l, hFI, bind_error_l]
  rw [hPC]
  rfl

/-- Witness for C10 at a concrete first line with a non-integer device id. -/
theorem C10_device_id_integer_witness :
    exceptIsOk (mkFileInfo "station,xyz,1999") = false ∧
    (∀ path, exceptIsOk (parseConfig path ("station,xyz,1999" :: ["3,1A,1D"])) = false) :=
  C10_device_id_integer "station,xyz,1999" "xyz" ["3,1A,1D"] (by decide) (by decide)

example : pySplit "a,,b" ',' = ["a", "", "b"] := by decide
example : pySplit "" ',' = [""] := by decide
example : pyRemove "1.cfg" ".cfg" = "1" := by decide
example : pyRemove "2A" "A" = "2" := by decide
example : pyInStr ".cfg" "dir/1.cfg" = true := by decide
example : pyInt " -32767" = .ok (-32767) := by decide
example : pyInt "1A" = .error "ValueError: invalid literal for int() with base 10: 1A" := by decide
example : pyFloat "00.5" = .ok (1/2) := by decide
example : readInt16LE [0x34, 0x12] 0 = .ok 0x1234 := by decide
example : readInt16LE [0xff, 0xff] 0 = .ok (-1) := by decide
example : exceptIsOk (readInt16LE [1] 0) = false := by decide
